import Mathlib

/-!
Verification development for the log-structured key/value store in
`src/courses/rust/projects/kvs` (files `src/kvs.rs` and `src/kvs_server.rs`).

The embedding is byte-level: Rust `String` keys and values are UTF-8 byte
sequences, modelled as `List Nat` (one `Nat` per byte).  The on-disk log file
is likewise a `List Nat`.  The store state `KvState` carries the fields of the
Rust struct `KvStore` (`map`, `dirty`, `log_pointers`, `actions`) plus the
current contents of the log file (the Rust struct holds only the file's path;
the contents live in the file system, which the model folds into the state).

Rust `HashMap`s are modelled as association lists with at most one entry per
key (`insertA` replaces in place, `removeA` removes the entry).  `HashMap`
iteration order is unspecified in Rust; the only iteration the code performs
(`log_pointers.values()` in `compact_log`) is immediately sorted by `begin`,
so the association-list order is irrelevant wherever the source's behaviour
is deterministic.

I/O in the model is total: file reads and writes cannot fail (the claims under
study do not concern I/O failures), and `Vec::drain` — which panics in Rust
when handed an out-of-bounds or inverted range — is totalised as
`take ++ drop`.  All concrete runs below stay within ranges where the model
and `Vec::drain` agree.
-/

set_option maxRecDepth 200000

/-- The three command records of `enum CommandData` in `kvs.rs` (serde
externally-tagged: `Set { key, value }`, `Get { key }`, `Rm { key }`).
Keys and values are byte strings. -/
inductive CommandData where
  | Set (key value : List Nat)
  | Get (key : List Nat)
  | Rm (key : List Nat)
deriving DecidableEq

/-- The `Bound` struct of `kvs.rs`: the byte range of a record in the log.
`bbegin` is the field `begin`, `bend` the field `end` (`end` is a Lean
keyword).  `read_log` stores `begin = first byte of the record` and
`end = index of the record's terminating newline`. -/
structure Bound where
  bbegin : Nat
  bend : Nat
deriving DecidableEq

/-- Errors the engine can produce: `ErrKeyNotFound` (from `remove`) and a
serde decode error (from `read_log` on a corrupt record).  Model analogue of
the `Box<dyn Error>` payloads the Rust code distinguishes. -/
inductive KvError where
  | keyNotFound (key : List Nat)
  | decodeErr
deriving DecidableEq

/-- The in-memory replay state threaded through `read_log`'s byte scan:
the fields of `KvStore` that the scan closure mutates. -/
structure Replay where
  map : List (List Nat × List Nat)
  log_pointers : List (List Nat × Bound)
  dirty : Bool
deriving DecidableEq

/-- The state of a `KvStore` plus the contents of its log file. -/
structure KvState where
  map : List (List Nat × List Nat)
  file : List Nat
  dirty : Bool
  log_pointers : List (List Nat × Bound)
  actions : Nat
deriving DecidableEq

/-- `const COMPACTION_SIZE: u64 = 10000;` from `kvs.rs`. -/
def COMPACTION_SIZE : Nat := 10000

/-- ASCII bytes of a Lean string literal (used only for ASCII literals). -/
def lit (s : String) : List Nat := s.data.map Char.toNat

/-- `HashMap::insert` on the association-list model: replace in place or
append.  Returns the new map (the Rust return value, the old binding, is
unused by the source except in `remove`). -/
def insertA {α : Type} : List (List Nat × α) → List Nat → α → List (List Nat × α)
  | [], k, v => [(k, v)]
  | (k', v') :: rest, k, v =>
      if k' = k then (k, v) :: rest else (k', v') :: insertA rest k v

/-- `HashMap::get` on the association-list model. -/
def lookupA {α : Type} : List (List Nat × α) → List Nat → Option α
  | [], _ => none
  | (k', v') :: rest, k => if k' = k then some v' else lookupA rest k

/-- `HashMap::remove` on the association-list model: returns the removed
value (if any) and the remaining map. -/
def removeA {α : Type} : List (List Nat × α) → List Nat → Option α × List (List Nat × α)
  | [], _ => (none, [])
  | (k', v') :: rest, k =>
      if k' = k then (some v', rest)
      else
        match removeA rest k with
        | (o, r) => (o, (k', v') :: r)

/-- Lower-case hex digit, as emitted by `serde_json` in `\u00XX` escapes. -/
def hexDigit (n : Nat) : Nat := if n < 10 then 48 + n else 87 + n

/-- `serde_json` string escaping, per byte: `"` and `\` are escaped, the
control bytes BS HT LF FF CR get two-byte escapes, other control bytes get
`\u00XX`; everything else (including UTF-8 continuation bytes ≥ 0x80) is
emitted as-is. -/
def escapeByte (b : Nat) : List Nat :=
  if b = 34 then [92, 34]
  else if b = 92 then [92, 92]
  else if b = 8 then [92, 98]
  else if b = 9 then [92, 116]
  else if b = 10 then [92, 110]
  else if b = 12 then [92, 102]
  else if b = 13 then [92, 114]
  else if b < 32 then [92, 117, 48, 48, hexDigit (b / 16), hexDigit (b % 16)]
  else [b]

/-- `serde_json` escaping of a whole byte string. -/
def escapeBytes (s : List Nat) : List Nat := (s.map escapeByte).flatten

/-- `serde_json::to_string` on `CommandData` (externally tagged enum with
struct variants), e.g. `\x7b"Set":\x7b"key":"k","value":"v"\x7d\x7d`.
The terminating newline added by `writeln!` is NOT part of this encoding. -/
def encodeCmd : CommandData → List Nat
  | .Set k v =>
      lit ("\x7b\"Set\":\x7b\"key\":\"") ++ escapeBytes k ++
      lit ("\",\"value\":\"") ++ escapeBytes v ++ lit ("\"\x7d\x7d")
  | .Get k => lit ("\x7b\"Get\":\x7b\"key\":\"") ++ escapeBytes k ++ lit ("\"\x7d\x7d")
  | .Rm k => lit ("\x7b\"Rm\":\x7b\"key\":\"") ++ escapeBytes k ++ lit ("\"\x7d\x7d")

/-- UTF-8 encoding of a code point (used to decode `\uXXXX` escapes back to
bytes). -/
def utf8Enc (c : Nat) : List Nat :=
  if c < 128 then [c]
  else if c < 2048 then [192 + c / 64, 128 + c % 64]
  else if c < 65536 then [224 + c / 4096, 128 + (c / 64) % 64, 128 + c % 64]
  else [240 + c / 262144, 128 + (c / 4096) % 64, 128 + (c / 64) % 64, 128 + c % 64]

/-- Value of a hex-digit byte. -/
def hexVal (b : Nat) : Option Nat :=
  if 48 ≤ b ∧ b ≤ 57 then some (b - 48)
  else if 97 ≤ b ∧ b ≤ 102 then some (b - 87)
  else if 65 ≤ b ∧ b ≤ 70 then some (b - 55)
  else none

/-- The short escape sequences of JSON strings, as `serde_json` accepts
them: `\"` `\\` `\n` `\t` `\r` `\b` `\f` `\/`. -/
def escCode (e : Nat) : Option Nat :=
  if e = 34 then some 34
  else if e = 92 then some 92
  else if e = 110 then some 10
  else if e = 116 then some 9
  else if e = 114 then some 13
  else if e = 98 then some 8
  else if e = 102 then some 12
  else if e = 47 then some 47
  else none

/-- Parser mode inside a JSON string: plain text, just after a backslash,
or collecting the remaining `left` digits of a `\uXXXX` escape into `acc`. -/
inductive PMode where
  | norm
  | esc
  | hex (left : Nat) (acc : Nat)

/-- Parse the body of a JSON string (after the opening quote) from a byte
sequence: returns the unescaped bytes and the remainder after the closing
quote.  Mirrors the JSON string grammar `serde_json` accepts: raw control
bytes and bad escapes are errors; lone surrogates in `\uXXXX` are errors.
(Surrogate pairs, which serde accepts, are rejected here; no input in this
development contains them.) -/
def psb : PMode → List Nat → Option (List Nat × List Nat)
  | .norm, [] => none
  | .norm, b :: rest =>
      if b = 34 then some ([], rest)
      else if b = 92 then psb .esc rest
      else if b < 32 then none
      else
        match psb .norm rest with
        | none => none
        | some (s, r) => some (b :: s, r)
  | .esc, [] => none
  | .esc, e :: rest =>
      if e = 117 then psb (.hex 4 0) rest
      else
        match escCode e with
        | none => none
        | some c =>
            match psb .norm rest with
            | none => none
            | some (s, r) => some (c :: s, r)
  | .hex _ _, [] => none
  | .hex left acc, d :: rest =>
      match hexVal d with
      | none => none
      | some v =>
          let acc2 := acc * 16 + v
          if left ≤ 1 then
            if 55296 ≤ acc2 ∧ acc2 ≤ 57343 then none
            else
              match psb .norm rest with
              | none => none
              | some (s, r) => some (utf8Enc acc2 ++ s, r)
          else psb (.hex (left - 1) acc2) rest

/-- The body parser, started in plain-text mode. -/
def parseStringBody (l : List Nat) : Option (List Nat × List Nat) := psb .norm l

/-- Parse a JSON string including its opening quote. -/
def parseJString : List Nat → Option (List Nat × List Nat)
  | [] => none
  | b :: rest => if b = 34 then parseStringBody rest else none

/-- Strip an expected literal byte sequence; `none` on mismatch. -/
def matchLit : List Nat → List Nat → Option (List Nat)
  | [], rest => some rest
  | _ :: _, [] => none
  | l :: ls, b :: bs => if b = l then matchLit ls bs else none

/-- `serde_json::from_slice::<CommandData>` on one record slice (the slice
excludes the terminating newline; serde requires the whole slice to be one
JSON value).  The parser accepts exactly the canonical shapes produced by
`encodeCmd`; `serde_json` additionally tolerates whitespace and field
reordering, which no producer in this system emits. -/
def decode (bs : List Nat) : Option CommandData :=
  match matchLit (lit ("\x7b\"Set\":\x7b\"key\":")) bs with
  | some r1 =>
      match parseJString r1 with
      | none => none
      | some (k, r2) =>
          match matchLit (lit (",\"value\":")) r2 with
          | none => none
          | some r3 =>
              match parseJString r3 with
              | none => none
              | some (v, r4) => if r4 = lit ("\x7d\x7d") then some (.Set k v) else none
  | none =>
  match matchLit (lit ("\x7b\"Get\":\x7b\"key\":")) bs with
  | some r1 =>
      match parseJString r1 with
      | none => none
      | some (k, r4) => if r4 = lit ("\x7d\x7d") then some (.Get k) else none
  | none =>
  match matchLit (lit ("\x7b\"Rm\":\x7b\"key\":")) bs with
  | some r1 =>
      match parseJString r1 with
      | none => none
      | some (k, r4) => if r4 = lit ("\x7d\x7d") then some (.Rm k) else none
  | none => none

/-- The slice `vec[from..to]` of Rust (byte range `[from, to)`). -/
def sliceFT (vec : List Nat) (f t : Nat) : List Nat := (vec.drop f).take (t - f)

/-- One step result of `read_log`'s scan: the mutated `Replay` fields, the
final `begin` and `end` counters, and the first decode error if any. -/
abbrev ScanOut := Replay × Nat × Nat × Option KvError

/-- The effect of one decoded record in `read_log`'s scan closure:
`Set` inserts into `map` and `log_pointers` (with `Bound { begin, end - 1 }`),
`Rm` removes from both, `Get` is ignored (`_ => ()`). -/
def applyCmd (st : Replay) (c : CommandData) (b e1 : Nat) : Replay :=
  match c with
  | .Set k v =>
      { st with
        map := insertA st.map k v
        log_pointers := insertA st.log_pointers k ⟨b, e1⟩ }
  | .Rm k =>
      { st with
        map := (removeA st.map k).2
        log_pointers := (removeA st.log_pointers k).2 }
  | .Get _ => st

/-- The byte scan of `KvStore::read_log` (`vec.iter().map(..).collect()`):
`vec` is the whole file (for the absolute slices `vec[begin..end-1]`), the
second argument is the remaining bytes, then the captured `begin` and `end`
counters and the mutated state.  Each iteration increments `end`; at a
newline it decodes `vec[begin..end-1]` (the `?` short-circuits the iteration
before `self.dirty = false` runs, leaving earlier mutations in place) and
applies the record; every completed iteration ends with `self.dirty = false`. -/
def scanAux (vec : List Nat) : List Nat → Nat → Nat → Replay → ScanOut
  | [], b, e, st => (st, b, e, none)
  | byte :: rest, b, e, st =>
      let e' := e + 1
      if byte = 10 then
        match decode (sliceFT vec b (e' - 1)) with
        | none => (st, b, e', some .decodeErr)
        | some cmd =>
            scanAux vec rest e' e' { applyCmd st cmd b (e' - 1) with dirty := false }
      else
        scanAux vec rest b e' { st with dirty := false }

/-- `KvStore::read_log`: skip when clean, otherwise read the whole file and
scan it, updating `map`, `log_pointers` and `dirty` (errors propagate, with
the partial mutations retained, as in the Rust `?` inside the closure). -/
def read_log (s : KvState) : KvState × Option KvError :=
  if s.dirty then
    match scanAux s.file s.file 0 0 ⟨s.map, s.log_pointers, s.dirty⟩ with
    | (st, _, _, err) =>
        ({ s with map := st.map, log_pointers := st.log_pointers, dirty := st.dirty }, err)
  else (s, none)

/-- Stable insertion into a list sorted by `bbegin` (model of `Vec::sort`
with the `Ord for Bound` that compares only `begin`). -/
def insertBound (x : Bound) : List Bound → List Bound
  | [] => [x]
  | y :: ys => if y.bbegin ≤ x.bbegin then y :: insertBound x ys else x :: y :: ys

/-- `bounds.sort()` in `compact_log`. -/
def sortBounds (l : List Bound) : List Bound := l.foldr insertBound []

/-- The drain loop of `compact_log`:
for each bound, `end = bound.begin - drain_size; buf.drain(begin..end);
drain_size += end - begin; begin = bound.end + 1 - drain_size`.
Returns the drained buffer and the final `begin` and `drain_size`.
(`Vec::drain` panics on an inverted or out-of-range range; the model
totalises it as `take begin ++ drop end`.) -/
def drainLoop : List Nat → Nat → Nat → List Bound → List Nat × Nat × Nat
  | buf, bg, ds, [] => (buf, bg, ds)
  | buf, bg, ds, bd :: rest =>
      let e := bd.bbegin - ds
      let buf' := buf.take bg ++ buf.drop e
      let ds' := ds + (e - bg)
      drainLoop buf' (bd.bend + 1 - ds') ds' rest

/-- `KvStore::compact_log`: a no-op below `COMPACTION_SIZE`; else refresh via
`read_log` when dirty, read the file, sort the `log_pointers` bounds, drain
everything outside them (plus the tail `buf.drain(begin..buf.len())`), and
truncate-rewrite the file.  Note: it neither resets `actions` nor refreshes
`log_pointers`/`dirty` for the rewritten file. -/
def compact_log (s : KvState) : KvState × Option KvError :=
  if s.actions < COMPACTION_SIZE then (s, none)
  else
    match (if s.dirty then read_log s else (s, none)) with
    | (s1, some e) => (s1, some e)
    | (s1, none) =>
        match drainLoop s1.file 0 0 (sortBounds (s1.log_pointers.map Prod.snd)) with
        | (buf, bg, _) => ({ s1 with file := buf.take bg }, none)

/-- `KvStore::write_log`: set `actions` to the file's byte length (the
`file.metadata()?.len()` taken before the append), append the serialized
record plus the `writeln!` newline, then run `compact_log`. -/
def write_log (s : KvState) (data : CommandData) : KvState × Option KvError :=
  compact_log { s with actions := s.file.length, file := s.file ++ encodeCmd data ++ [10] }

/-- `KvStore::open`: create/open the log file (contents preserved) and return
a store with empty `map` and `log_pointers`, `dirty = true`, `actions = 0`.
No replay happens here. -/
def KvStore.openStore (file : List Nat) : KvState :=
  { map := [], file := file, dirty := true, log_pointers := [], actions := 0 }

/-- `KvStore::set`: `write_log(Set { key, value })`, then on success
`dirty = true`. -/
def KvStore.set (s : KvState) (key val : List Nat) : KvState × Except KvError Unit :=
  match write_log s (.Set key val) with
  | (s', none) => ({ s' with dirty := true }, .ok ())
  | (s', some e) => (s', .error e)

/-- `KvStore::get`: `read_log`, look the key up in `map`; an unbound key is
`Ok(None)`; a bound key is logged (`write_log(Get { key })`) and returned. -/
def KvStore.get (s : KvState) (key : List Nat) : KvState × Except KvError (Option (List Nat)) :=
  match read_log s with
  | (s1, some e) => (s1, .error e)
  | (s1, none) =>
      match lookupA s1.map key with
      | none => (s1, .ok none)
      | some v =>
          match write_log s1 (.Get key) with
          | (s2, none) => (s2, .ok (some v))
          | (s2, some e) => (s2, .error e)

/-- `KvStore::remove`: `read_log`, `map.remove`; an absent key is
`ErrKeyNotFound`; otherwise `write_log(Rm { key })` and on success
`dirty = true`.  (`log_pointers` is NOT touched here.) -/
def KvStore.remove (s : KvState) (key : List Nat) : KvState × Except KvError Unit :=
  match read_log s with
  | (s1, some e) => (s1, .error e)
  | (s1, none) =>
      match removeA s1.map key with
      | (none, _) => (s1, .error (.keyNotFound key))
      | (some _, m') =>
          match write_log { s1 with map := m' } (.Rm key) with
          | (s2, none) => ({ s2 with dirty := true }, .ok ())
          | (s2, some e) => (s2, .error e)

/-- Errors that escape `KvsServer::serve` (all become `Box<dyn Error>` in
Rust): a connection/read failure, a `serde_json` failure on the request
bytes, or an engine error propagated by `?` from `handle_request`. -/
inductive ServeErr where
  | ioErr
  | decodeFail
  | engineErr (e : KvError)
deriving DecidableEq

/-- The `"Key not found"` reply bytes. -/
def knfReply : List Nat := lit ("Key not found")

/-- `KvsServer::handle_request` over the `KvStore` engine: returns the new
engine state and either the optional reply written to the stream or the
error the Rust `?` propagates.  `Get`: engine errors propagate, `None`
replies `Key not found`, `Some v` replies `v`.  `Set`: engine errors
propagate, success writes nothing.  `Rm`: `ErrKeyNotFound` replies
`Key not found`; any other engine error is silently swallowed (the Rust
`match` only tests `e.is::<ErrKeyNotFound>()`). -/
def handle_request (store : KvState) (cmd : CommandData) :
    KvState × Except ServeErr (Option (List Nat)) :=
  match cmd with
  | .Get key =>
      match KvStore.get store key with
      | (s', .error e) => (s', .error (.engineErr e))
      | (s', .ok none) => (s', .ok (some knfReply))
      | (s', .ok (some v)) => (s', .ok (some v))
  | .Set key value =>
      match KvStore.set store key value with
      | (s', .error e) => (s', .error (.engineErr e))
      | (s', .ok _) => (s', .ok none)
  | .Rm key =>
      match KvStore.remove store key with
      | (s', .ok _) => (s', .ok none)
      | (s', .error (.keyNotFound _)) => (s', .ok (some knfReply))
      | (s', .error _) => (s', .ok none)

/-- `KvsServer::serve`'s accept loop.  Each incoming connection is either a
failure (`.error`, covering both a failed accept and a failed
`stream.read`, each of which makes `serve` return `Err`) or a request
payload.  `stream.read(&mut buf)` reads into a fixed `[0u8; 100]` buffer, so
only the first 100 bytes are seen; the slice `buf[0..size]` is decoded, a
decode failure propagates out of `serve`, and `handle_request` errors
likewise terminate the loop.  Returns the final engine state, the reply (if
any) of each connection fully handled, and the error `serve` returned with
(or `none` when the stream of connections is exhausted). -/
def serve (store : KvState) :
    List (Except Unit (List Nat)) → KvState × List (Option (List Nat)) × Option ServeErr
  | [] => (store, [], none)
  | .error _ :: _ => (store, [], some .ioErr)
  | .ok payload :: rest =>
      match decode (payload.take 100) with
      | none => (store, [], some .decodeFail)
      | some cmd =>
          match handle_request store cmd with
          | (store', .error e) => (store', [], some e)
          | (store', .ok reply) =>
              match serve store' rest with
              | (s2, logs, err) => (s2, reply :: logs, err)

deriving instance DecidableEq for Except

/-- A byte that `serde_json` emits unescaped: printable and neither `"`
nor `\`. -/
def plainB (b : Nat) : Prop := 32 ≤ b ∧ b ≠ 34 ∧ b ≠ 92

instance (b : Nat) : Decidable (plainB b) := by unfold plainB; infer_instance

/-! ### Concrete runs used by the claims.

`c1s…`: the resurrection run — `set "k" (10000 bytes)`, then `remove "k"`.
The `remove` appends its `Rm` record and, the log being past
`COMPACTION_SIZE`, compacts; `remove` never deleted `"k"` from
`log_pointers`, so compaction keeps the `Set` record and drops the `Rm`
record just written.

`stA…`: the stale-offset run — `set "p" (9937 bytes)`, `get "p"`,
`set "a" "b"`, `get "a"`, `get "a"`.  The first `get "a"` compacts (dropping
the logged `Get "p"` record), which shifts the `Set "a"` record 20 bytes to
the left without refreshing `log_pointers`; the second `get "a"` compacts
again with the stale offsets and destroys the first 20 bytes of the
`Set "a"` record. -/

def keyK : List Nat := lit ("k")

def bigVal : List Nat := List.replicate 10000 97

/-- State after `set "k" bigVal` on a fresh store (established by
`claim_c1_code_bug`). -/
def c1S1 : KvState := ⟨[], encodeCmd (.Set keyK bigVal) ++ [10], true, [], 0⟩

/-- State after the subsequent `remove "k"`: compaction (triggered at
10031 ≥ COMPACTION_SIZE bytes) has dropped the `Rm` record and kept the
`Set` record, because `remove` left `"k"` in `log_pointers`. -/
def c1S2 : KvState := ⟨[], encodeCmd (.Set keyK bigVal) ++ [10], true,
  [(keyK, ⟨0, 10030⟩)], 10031⟩

/-- State after the final `get "k"`: the replay of the compacted log has
resurrected the removed binding. -/
def c1S3 : KvState := ⟨[(keyK, bigVal)], encodeCmd (.Set keyK bigVal) ++ [10], false,
  [(keyK, ⟨0, 10030⟩)], 10031⟩

def keyP : List Nat := lit ("p")

def keyA : List Nat := lit ("a")

def valB : List Nat := lit ("b")

def padVal : List Nat := List.replicate 9937 97

/-- State after `set "p" padVal` on a fresh store. -/
def stAS1 : KvState := ⟨[], encodeCmd (.Set keyP padVal) ++ [10], true, [], 0⟩

/-- State after `get "p"`: the read was logged (no compaction, 9968 < 10⁴). -/
def stAS2 : KvState := ⟨[(keyP, padVal)],
  (encodeCmd (.Set keyP padVal) ++ [10]) ++ encodeCmd (.Get keyP) ++ [10], false,
  [(keyP, ⟨0, 9967⟩)], 9968⟩

/-- State after `set "a" "b"` (still no compaction, 9988 < 10⁴). -/
def stAS3 : KvState := ⟨[(keyP, padVal)],
  ((encodeCmd (.Set keyP padVal) ++ [10]) ++ encodeCmd (.Get keyP) ++ [10])
    ++ encodeCmd (.Set keyA valB) ++ [10], true,
  [(keyP, ⟨0, 9967⟩)], 9988⟩

/-- State after the first `get "a"`: its logged `Get` pushed the file to
10020 ≥ 10⁴ bytes, so compaction ran with fresh bounds and correctly dropped
the dead `Get "p"` record — but `log_pointers` still holds the OLD offsets
(the `Set "a"` record now starts at 9968, not 9988). -/
def stAS4 : KvState := ⟨[(keyP, padVal), (keyA, valB)],
  (encodeCmd (.Set keyP padVal) ++ [10]) ++ encodeCmd (.Set keyA valB) ++ [10], false,
  [(keyP, ⟨0, 9967⟩), (keyA, ⟨9988, 10019⟩)], 10020⟩

/-- State after the second `get "a"`: compaction ran again (file was back at
10⁴ bytes) with the stale bounds and drained bytes 9968..9988 — the first 20
bytes of the live `Set "a"` record — leaving a corrupt log. -/
def stAS5 : KvState := ⟨[(keyP, padVal), (keyA, valB)],
  ((encodeCmd (.Set keyP padVal) ++ [10]) ++ ((encodeCmd (.Set keyA valB)).drop 20 ++
    ([10] ++ (encodeCmd (.Get keyA) ++ [10])))), false,
  [(keyP, ⟨0, 9967⟩), (keyA, ⟨9988, 10019⟩)], 10000⟩

/-- A log whose single line is not a `CommandData` record. -/
def corruptLog : List Nat := lit ("garbage") ++ [10]

/-- A log holding one valid `Set "a" "b"` record. -/
def goodLog : List Nat := encodeCmd (.Set keyA valB) ++ [10]

/-- A truncated prefix of a record: the first bytes of a `Set` record with
no terminating newline (a crash mid-append). -/
def fragBytes : List Nat := lit ("\x7b\"Se")

def keyC : List Nat := lit ("c")

def valD : List Nat := lit ("d")

/-- A value making `encodeCmd (.Set keyA longVal)` 128 bytes long — a valid
request that does not fit the server's 100-byte read buffer. -/
def longVal : List Nat := List.replicate 98 97

/-! ### Generic lemmas: slices, escaping, parsing, decoding. -/

theorem sliceFT_zero (vec : List Nat) (t : Nat) : sliceFT vec 0 t = vec.take t := by
  simp [sliceFT]

theorem sliceFT_at (pre r suf : List Nat) :
    sliceFT (pre ++ r ++ suf) pre.length (pre.length + r.length) = r := by
  unfold sliceFT
  rw [List.append_assoc, List.drop_left, Nat.add_sub_cancel_left, List.take_left]

theorem escapeByte_plain {b : Nat} (h : plainB b) : escapeByte b = [b] := by
  obtain ⟨h1, h2, h3⟩ := h
  unfold escapeByte
  rw [if_neg h2, if_neg h3]
  rw [if_neg (by omega), if_neg (by omega), if_neg (by omega), if_neg (by omega),
    if_neg (by omega), if_neg (by omega)]

theorem escapeBytes_plain {s : List Nat} (h : ∀ b ∈ s, plainB b) : escapeBytes s = s := by
  induction s with
  | nil => rfl
  | cons b rest ih =>
      have hb : plainB b := h b (by simp)
      have hr := ih (fun x hx => h x (by simp [hx]))
      simp only [escapeBytes, List.map_cons, List.flatten_cons] at *
      rw [escapeByte_plain hb, hr]
      rfl

theorem hexDigit_ge (n : Nat) : 48 ≤ hexDigit n := by
  unfold hexDigit; split <;> omega

theorem escapeByte_ge32 (b : Nat) : ∀ x ∈ escapeByte b, 32 ≤ x := by
  intro x h
  unfold escapeByte at h
  have g1 := hexDigit_ge (b / 16)
  have g2 := hexDigit_ge (b % 16)
  split at h
  · simp only [List.mem_cons, List.not_mem_nil, or_false] at h
    rcases h with rfl | rfl <;> omega
  · split at h
    · simp only [List.mem_cons, List.not_mem_nil, or_false] at h
      rcases h with rfl | rfl <;> omega
    · split at h
      · simp only [List.mem_cons, List.not_mem_nil, or_false] at h
        rcases h with rfl | rfl <;> omega
      · split at h
        · simp only [List.mem_cons, List.not_mem_nil, or_false] at h
          rcases h with rfl | rfl <;> omega
        · split at h
          · simp only [List.mem_cons, List.not_mem_nil, or_false] at h
            rcases h with rfl | rfl <;> omega
          · split at h
            · simp only [List.mem_cons, List.not_mem_nil, or_false] at h
              rcases h with rfl | rfl <;> omega
            · split at h
              · simp only [List.mem_cons, List.not_mem_nil, or_false] at h
                rcases h with rfl | rfl <;> omega
              · split at h
                · simp only [List.mem_cons, List.not_mem_nil, or_false] at h
                  rcases h with rfl | rfl | rfl | rfl | rfl | rfl <;> omega
                · simp only [List.mem_cons, List.not_mem_nil, or_false] at h
                  subst h
                  rename_i hlt
                  omega

theorem escapeByte_no10 {b x : Nat} (h : x ∈ escapeByte b) : x ≠ 10 := by
  have := escapeByte_ge32 b x h
  omega

theorem escapeBytes_no10 {s : List Nat} {x : Nat} (h : x ∈ escapeBytes s) : x ≠ 10 := by
  unfold escapeBytes at h
  rw [List.mem_flatten] at h
  obtain ⟨l, hl, hx⟩ := h
  rw [List.mem_map] at hl
  obtain ⟨b, _, rfl⟩ := hl
  exact escapeByte_no10 hx

theorem encode_no10 (c : CommandData) : ∀ x ∈ encodeCmd c, x ≠ 10 := by
  intro x hx
  cases c with
  | Set k v =>
      simp only [encodeCmd, List.append_assoc, List.mem_append] at hx
      rcases hx with h | h | h | h | h
      · exact fun heq => absurd (heq ▸ h) (by decide)
      · exact escapeBytes_no10 h
      · exact fun heq => absurd (heq ▸ h) (by decide)
      · exact escapeBytes_no10 h
      · exact fun heq => absurd (heq ▸ h) (by decide)
  | Get k =>
      simp only [encodeCmd, List.append_assoc, List.mem_append] at hx
      rcases hx with h | h | h
      · exact fun heq => absurd (heq ▸ h) (by decide)
      · exact escapeBytes_no10 h
      · exact fun heq => absurd (heq ▸ h) (by decide)
  | Rm k =>
      simp only [encodeCmd, List.append_assoc, List.mem_append] at hx
      rcases hx with h | h | h
      · exact fun heq => absurd (heq ▸ h) (by decide)
      · exact escapeBytes_no10 h
      · exact fun heq => absurd (heq ▸ h) (by decide)

theorem lit_set_key :
    lit ("\x7b\"Set\":\x7b\"key\":")
      = [123, 34, 83, 101, 116, 34, 58, 123, 34, 107, 101, 121, 34, 58] := by decide

theorem lit_set_keyq :
    lit ("\x7b\"Set\":\x7b\"key\":\"")
      = [123, 34, 83, 101, 116, 34, 58, 123, 34, 107, 101, 121, 34, 58, 34] := by decide

theorem lit_get_key :
    lit ("\x7b\"Get\":\x7b\"key\":")
      = [123, 34, 71, 101, 116, 34, 58, 123, 34, 107, 101, 121, 34, 58] := by decide

theorem lit_get_keyq :
    lit ("\x7b\"Get\":\x7b\"key\":\"")
      = [123, 34, 71, 101, 116, 34, 58, 123, 34, 107, 101, 121, 34, 58, 34] := by decide

theorem lit_rm_key :
    lit ("\x7b\"Rm\":\x7b\"key\":")
      = [123, 34, 82, 109, 34, 58, 123, 34, 107, 101, 121, 34, 58] := by decide

theorem lit_rm_keyq :
    lit ("\x7b\"Rm\":\x7b\"key\":\"")
      = [123, 34, 82, 109, 34, 58, 123, 34, 107, 101, 121, 34, 58, 34] := by decide

theorem lit_value : lit (",\"value\":") = [44, 34, 118, 97, 108, 117, 101, 34, 58] := by decide

theorem lit_valueq :
    lit ("\",\"value\":\"") = [34, 44, 34, 118, 97, 108, 117, 101, 34, 58, 34] := by decide

theorem lit_braces : lit ("\x7d\x7d") = [125, 125] := by decide

theorem lit_closebb : lit ("\"\x7d\x7d") = [34, 125, 125] := by decide

theorem matchLit_self (p rest : List Nat) : matchLit p (p ++ rest) = some rest := by
  induction p with
  | nil => rfl
  | cons a p' ih => simp [matchLit, ih]

theorem parseJString_cons (rest : List Nat) : parseJString (34 :: rest) = parseStringBody rest := by
  simp [parseJString]

theorem parse_plain {k : List Nat} (h : ∀ b ∈ k, plainB b) (rest : List Nat) :
    parseStringBody (k ++ 34 :: rest) = some (k, rest) := by
  unfold parseStringBody
  induction k with
  | nil => simp [psb]
  | cons b k' ih =>
      obtain ⟨h1, h2, h3⟩ := h b (by simp)
      have ih' := ih (fun x hx => h x (by simp [hx]))
      rw [List.cons_append, psb]
      rw [if_neg h2, if_neg h3, if_neg (by omega), ih']

theorem matchLit_set_get (x : List Nat) :
    matchLit (lit ("\x7b\"Set\":\x7b\"key\":")) (lit ("\x7b\"Get\":\x7b\"key\":") ++ x) = none := by
  rw [lit_set_key, lit_get_key]
  simp [matchLit]

theorem matchLit_set_rm (x : List Nat) :
    matchLit (lit ("\x7b\"Set\":\x7b\"key\":")) (lit ("\x7b\"Rm\":\x7b\"key\":") ++ x) = none := by
  rw [lit_set_key, lit_rm_key]
  simp [matchLit]

theorem matchLit_get_rm (x : List Nat) :
    matchLit (lit ("\x7b\"Get\":\x7b\"key\":")) (lit ("\x7b\"Rm\":\x7b\"key\":") ++ x) = none := by
  rw [lit_get_key, lit_rm_key]
  simp [matchLit]

theorem decode_encode_set {k v : List Nat} (hk : ∀ b ∈ k, plainB b) (hv : ∀ b ∈ v, plainB b) :
    decode (encodeCmd (.Set k v)) = some (.Set k v) := by
  have hform : encodeCmd (.Set k v)
      = lit ("\x7b\"Set\":\x7b\"key\":") ++
          (34 :: (k ++ (34 :: (lit (",\"value\":") ++
            (34 :: (v ++ (34 :: lit ("\x7d\x7d")))))))) := by
    simp only [encodeCmd, escapeBytes_plain hk, escapeBytes_plain hv,
      lit_set_keyq, lit_set_key, lit_valueq, lit_value, lit_closebb, lit_braces]
    simp
  rw [decode, hform, matchLit_self]
  simp only [parseJString_cons, parse_plain hk]
  rw [matchLit_self]
  simp only [parseJString_cons, parse_plain hv]
  simp

theorem decode_encode_get {k : List Nat} (hk : ∀ b ∈ k, plainB b) :
    decode (encodeCmd (.Get k)) = some (.Get k) := by
  have hform : encodeCmd (.Get k)
      = lit ("\x7b\"Get\":\x7b\"key\":") ++ (34 :: (k ++ (34 :: lit ("\x7d\x7d")))) := by
    simp only [encodeCmd, escapeBytes_plain hk, lit_get_keyq, lit_get_key, lit_closebb, lit_braces]
    simp
  rw [decode, hform, matchLit_set_get, matchLit_self]
  simp only [parseJString_cons, parse_plain hk]
  simp

theorem decode_encode_rm {k : List Nat} (hk : ∀ b ∈ k, plainB b) :
    decode (encodeCmd (.Rm k)) = some (.Rm k) := by
  have hform : encodeCmd (.Rm k)
      = lit ("\x7b\"Rm\":\x7b\"key\":") ++ (34 :: (k ++ (34 :: lit ("\x7d\x7d")))) := by
    simp only [encodeCmd, escapeBytes_plain hk, lit_rm_keyq, lit_rm_key, lit_closebb, lit_braces]
    simp
  rw [decode, hform, matchLit_set_rm, matchLit_get_rm, matchLit_self]
  simp only [parseJString_cons, parse_plain hk]
  simp

/-! ### Scan lemmas: how `read_log`'s byte scan walks records. -/

theorem scan_nil (vec : List Nat) (b e : Nat) (st : Replay) :
    scanAux vec [] b e st = (st, b, e, none) := rfl

/-- Scanning a newline-free segment only advances `end` and clears `dirty`
(when the segment is nonempty). -/
theorem scan_adv {seg : List Nat} (h : ∀ x ∈ seg, x ≠ 10) (vec tail : List Nat)
    (b e : Nat) (st : Replay) :
    scanAux vec (seg ++ tail) b e st
      = scanAux vec tail b (e + seg.length) { st with dirty := st.dirty && seg.isEmpty } := by
  induction seg generalizing e st with
  | nil => simp
  | cons x seg' ih =>
      have hx : x ≠ 10 := h x (by simp)
      rw [List.cons_append, scanAux]
      rw [if_neg hx]
      rw [ih (fun y hy => h y (by simp [hy]))]
      have he : e + 1 + seg'.length = e + (seg'.length + 1) := by omega
      simp only [List.length_cons, List.isEmpty_cons, Bool.and_false, Bool.false_and, he]

/-- `applyCmd` leaves `dirty` alone, so a pre-set `dirty` commutes out. -/
theorem applyCmd_dirty (st : Replay) (c : CommandData) (b e1 : Nat) (d : Bool) :
    applyCmd { st with dirty := d } c b e1 = { applyCmd st c b e1 with dirty := d } := by
  cases c <;> rfl

/-- Scanning one whole record that decodes: the scan applies the record and
moves both counters past the terminating newline. -/
theorem scan_chunk {vec r : List Nat} {b : Nat} {c : CommandData}
    (h10 : ∀ x ∈ r, x ≠ 10) (hdec : decode (sliceFT vec b (b + r.length)) = some c)
    (rest : List Nat) (st : Replay) :
    scanAux vec (r ++ 10 :: rest) b b st
      = scanAux vec rest (b + r.length + 1) (b + r.length + 1)
          { applyCmd st c b (b + r.length) with dirty := false } := by
  rw [scan_adv h10]
  rw [scanAux]
  rw [if_pos rfl]
  have : b + r.length + 1 - 1 = b + r.length := by omega
  rw [this, hdec]
  simp only [applyCmd_dirty]

/-- Scanning one whole record that does NOT decode: the scan stops with a
decode error (`dirty` keeps the value the previous iterations left). -/
theorem scan_fail {vec r : List Nat} {b : Nat}
    (h10 : ∀ x ∈ r, x ≠ 10) (hdec : decode (sliceFT vec b (b + r.length)) = none)
    (rest : List Nat) (st : Replay) :
    scanAux vec (r ++ 10 :: rest) b b st
      = ({ st with dirty := st.dirty && r.isEmpty }, b, b + r.length + 1, some .decodeErr) := by
  rw [scan_adv h10]
  rw [scanAux]
  rw [if_pos rfl]
  have : b + r.length + 1 - 1 = b + r.length := by omega
  rw [this, hdec]

/-! ### Operation-level helpers. -/

theorem compact_small {s : KvState} (h : s.actions < COMPACTION_SIZE) :
    compact_log s = (s, none) := by
  unfold compact_log
  rw [if_pos h]

theorem write_small {s : KvState} (d : CommandData) (h : s.file.length < COMPACTION_SIZE) :
    write_log s d
      = ({ s with actions := s.file.length, file := s.file ++ encodeCmd d ++ [10] }, none) := by
  unfold write_log
  exact compact_small h

theorem length_encode_set {k v : List Nat} (hk : ∀ b ∈ k, plainB b) (hv : ∀ b ∈ v, plainB b) :
    (encodeCmd (.Set k v)).length = k.length + v.length + 29 := by
  simp only [encodeCmd, escapeBytes_plain hk, escapeBytes_plain hv, List.length_append]
  have h1 : (lit ("\x7b\"Set\":\x7b\"key\":\"")).length = 15 := by decide
  have h2 : (lit ("\",\"value\":\"")).length = 11 := by decide
  have h3 : (lit ("\"\x7d\x7d")).length = 3 := by decide
  omega

theorem length_encode_get {k : List Nat} (hk : ∀ b ∈ k, plainB b) :
    (encodeCmd (.Get k)).length = k.length + 18 := by
  simp only [encodeCmd, escapeBytes_plain hk, List.length_append]
  have h1 : (lit ("\x7b\"Get\":\x7b\"key\":\"")).length = 15 := by decide
  have h3 : (lit ("\"\x7d\x7d")).length = 3 := by decide
  omega

theorem length_encode_rm {k : List Nat} (hk : ∀ b ∈ k, plainB b) :
    (encodeCmd (.Rm k)).length = k.length + 17 := by
  simp only [encodeCmd, escapeBytes_plain hk, List.length_append]
  have h1 : (lit ("\x7b\"Rm\":\x7b\"key\":\"")).length = 14 := by decide
  have h3 : (lit ("\"\x7d\x7d")).length = 3 := by decide
  omega

theorem plain_keyK : ∀ b ∈ keyK, plainB b := by decide

theorem plain_keyA : ∀ b ∈ keyA, plainB b := by decide

theorem plain_keyP : ∀ b ∈ keyP, plainB b := by decide

theorem plain_valB : ∀ b ∈ valB, plainB b := by decide

theorem plain_replicate {n : Nat} : ∀ b ∈ List.replicate n 97, plainB b := by
  intro b hb
  rw [List.eq_of_mem_replicate hb]
  decide

theorem plain_bigVal : ∀ b ∈ bigVal, plainB b := plain_replicate

theorem plain_padVal : ∀ b ∈ padVal, plainB b := plain_replicate

/-- `read_log` on a dirty store, with the state fields split out so that the
scan application stays syntactic. -/
theorem read_log_fields (m : List (List Nat × List Nat)) (f : List Nat)
    (lp : List (List Nat × Bound)) (a : Nat) :
    read_log ⟨m, f, true, lp, a⟩
      = (match scanAux f f 0 0 ⟨m, lp, true⟩ with
         | (st, _, _, err) => (⟨st.map, f, st.dirty, st.log_pointers, a⟩, err)) := by
  unfold read_log
  rw [if_pos rfl]

/-- `read_log` on a clean store is the identity. -/
theorem read_log_clean (m : List (List Nat × List Nat)) (f : List Nat)
    (lp : List (List Nat × Bound)) (a : Nat) :
    read_log ⟨m, f, false, lp, a⟩ = (⟨m, f, false, lp, a⟩, none) := by
  unfold read_log
  rfl

/-- `write_log` with the state fields split out. -/
theorem write_log_fields (m : List (List Nat × List Nat)) (f : List Nat) (d : Bool)
    (lp : List (List Nat × Bound)) (a : Nat) (cmd : CommandData) :
    write_log ⟨m, f, d, lp, a⟩ cmd
      = compact_log ⟨m, f ++ encodeCmd cmd ++ [10], d, lp, f.length⟩ := by
  unfold write_log
  rfl

/-- `compact_log` past the threshold on a clean store: drain and rewrite. -/
theorem compact_fields_clean (m : List (List Nat × List Nat)) (f : List Nat)
    (lp : List (List Nat × Bound)) {a : Nat} (h : ¬ a < COMPACTION_SIZE) :
    compact_log ⟨m, f, false, lp, a⟩
      = (match drainLoop f 0 0 (sortBounds (lp.map Prod.snd)) with
         | (buf, bg, _) => (⟨m, buf.take bg, false, lp, a⟩, none)) := by
  unfold compact_log
  rw [if_neg h]
  rfl

theorem insertA_nil {α : Type} (k : List Nat) (v : α) : insertA [] k v = [(k, v)] := rfl

theorem insertA_singleton {α : Type} (k : List Nat) (x y : α) :
    insertA [(k, x)] k y = [(k, y)] := by simp [insertA]

theorem removeA_singleton {α : Type} (k : List Nat) (v : α) :
    removeA [(k, v)] k = (some v, []) := by simp [removeA]

theorem lookupA_singleton {α : Type} (k : List Nat) (v : α) :
    lookupA [(k, v)] k = some v := by simp [lookupA]

theorem sortBounds_one (x : Bound) : sortBounds [x] = [x] := rfl

theorem drainLoop_nil (buf : List Nat) (bg ds : Nat) : drainLoop buf bg ds [] = (buf, bg, ds) := rfl

theorem drainLoop_zero_one (buf : List Nat) (e1 : Nat) :
    drainLoop buf 0 0 [⟨0, e1⟩] = (buf, e1 + 1, 0) := by
  rw [drainLoop, drainLoop]
  norm_num

theorem drainLoop_two (buf : List Nat) (e1 b2b b2e : Nat) :
    drainLoop buf 0 0 [⟨0, e1⟩, ⟨b2b, b2e⟩]
      = (buf.take (e1 + 1) ++ buf.drop b2b, b2e + 1 - (b2b - (e1 + 1)), b2b - (e1 + 1)) := by
  rw [drainLoop, drainLoop, drainLoop]
  norm_num

theorem c1_len_r1 : (encodeCmd (.Set keyK bigVal)).length = 10030 := by
  rw [length_encode_set plain_keyK plain_bigVal]
  have h1 : keyK.length = 1 := by decide
  have h2 : bigVal.length = 10000 := by rw [bigVal, List.length_replicate]
  omega

theorem c1_len_F1 : (encodeCmd (.Set keyK bigVal) ++ [10]).length = 10031 := by
  rw [List.length_append, c1_len_r1]
  rfl

theorem c1_dec : decode (sliceFT (encodeCmd (.Set keyK bigVal) ++ [10]) 0
    (0 + (encodeCmd (.Set keyK bigVal)).length)) = some (.Set keyK bigVal) := by
  rw [sliceFT_zero, Nat.zero_add, List.take_left]
  exact decode_encode_set plain_keyK plain_bigVal

theorem c1_scan (m0 : List (List Nat × List Nat)) (lp0 : List (List Nat × Bound)) :
    scanAux (encodeCmd (.Set keyK bigVal) ++ [10]) (encodeCmd (.Set keyK bigVal) ++ [10]) 0 0
        ⟨m0, lp0, true⟩
      = (⟨insertA m0 keyK bigVal, insertA lp0 keyK ⟨0, 10030⟩, false⟩, 10031, 10031, none) := by
  have h := @scan_chunk (encodeCmd (.Set keyK bigVal) ++ [10]) (encodeCmd (.Set keyK bigVal)) 0
    (.Set keyK bigVal) (encode_no10 _) c1_dec [] ⟨m0, lp0, true⟩
  rw [scan_nil] at h
  rw [c1_len_r1] at h
  simp only [Nat.reduceAdd] at h
  rw [h]
  simp only [applyCmd]

theorem c1_read (m0 : List (List Nat × List Nat)) (lp0 : List (List Nat × Bound)) (a0 : Nat) :
    read_log ⟨m0, encodeCmd (.Set keyK bigVal) ++ [10], true, lp0, a0⟩
      = (⟨insertA m0 keyK bigVal, encodeCmd (.Set keyK bigVal) ++ [10], false,
          insertA lp0 keyK ⟨0, 10030⟩, a0⟩, none) := by
  rw [read_log_fields]
  rw [c1_scan m0 lp0]

theorem c1_step1 : KvStore.set (KvStore.openStore []) keyK bigVal = (c1S1, .ok ()) := by
  unfold KvStore.openStore KvStore.set c1S1
  rw [write_log_fields]
  rw [List.nil_append, List.length_nil]
  rw [compact_small (by decide)]

/-! ### Control-flow lemmas: each engine operation, conditioned on the
results of its internal calls (all symbolic, so instantiation never forces
deep evaluation). -/

theorem set_eq_ok {s s' : KvState} {k v : List Nat}
    (hw : write_log s (.Set k v) = (s', none)) :
    KvStore.set s k v = ({ s' with dirty := true }, .ok ()) := by
  unfold KvStore.set
  rw [hw]

theorem get_eq_err {s s1 : KvState} {e : KvError} {key : List Nat}
    (hr : read_log s = (s1, some e)) :
    KvStore.get s key = (s1, .error e) := by
  unfold KvStore.get
  rw [hr]

theorem get_eq_none {s s1 : KvState} {key : List Nat} (hr : read_log s = (s1, none))
    (hl : lookupA s1.map key = none) :
    KvStore.get s key = (s1, .ok none) := by
  unfold KvStore.get
  rw [hr]
  simp only []
  rw [hl]

theorem get_eq_found {s s1 s2 : KvState} {key v : List Nat} (hr : read_log s = (s1, none))
    (hl : lookupA s1.map key = some v) (hw : write_log s1 (.Get key) = (s2, none)) :
    KvStore.get s key = (s2, .ok (some v)) := by
  unfold KvStore.get
  rw [hr]
  simp only []
  rw [hl]
  simp only []
  rw [hw]

theorem remove_eq_notfound {s s1 : KvState} {key : List Nat} {m' : List (List Nat × List Nat)}
    (hr : read_log s = (s1, none)) (hm : removeA s1.map key = (none, m')) :
    KvStore.remove s key = (s1, .error (.keyNotFound key)) := by
  unfold KvStore.remove
  rw [hr]
  simp only []
  rw [hm]

theorem remove_eq_ok {s s1 s2 : KvState} {key v : List Nat} {m' : List (List Nat × List Nat)}
    (hr : read_log s = (s1, none)) (hm : removeA s1.map key = (some v, m'))
    (hw : write_log { s1 with map := m' } (.Rm key) = (s2, none)) :
    KvStore.remove s key = ({ s2 with dirty := true }, .ok ()) := by
  unfold KvStore.remove
  rw [hr]
  simp only []
  rw [hm]
  simp only []
  rw [hw]

theorem compact_clean_eq {m : List (List Nat × List Nat)} {f : List Nat}
    {lp : List (List Nat × Bound)} {a : Nat} (h : ¬ a < COMPACTION_SIZE)
    {buf : List Nat} {bg ds : Nat}
    (hd : drainLoop f 0 0 (sortBounds (lp.map Prod.snd)) = (buf, bg, ds)) :
    compact_log ⟨m, f, false, lp, a⟩ = (⟨m, buf.take bg, false, lp, a⟩, none) := by
  rw [compact_fields_clean _ _ _ h, hd]

theorem take_len_append {l1 : List Nat} (l2 : List Nat) {n : Nat} (h : l1.length = n) :
    (l1 ++ l2).take n = l1 := by
  subst h
  exact List.take_left ..

theorem c1_step2 : KvStore.remove c1S1 keyK = (c1S2, .ok ()) := by
  have hr : read_log c1S1
      = (⟨[(keyK, bigVal)], encodeCmd (.Set keyK bigVal) ++ [10], false,
          [(keyK, ⟨0, 10030⟩)], 0⟩, none) := by
    unfold c1S1
    rw [c1_read [] [] 0, insertA_nil, insertA_nil]
  have hdr := drainLoop_zero_one
    ((encodeCmd (.Set keyK bigVal) ++ [10]) ++ encodeCmd (.Rm keyK) ++ [10]) 10030
  simp only [Nat.reduceAdd] at hdr
  have hcomp := @compact_clean_eq []
    ((encodeCmd (.Set keyK bigVal) ++ [10]) ++ encodeCmd (.Rm keyK) ++ [10])
    [(keyK, ⟨0, 10030⟩)] 10031 (by norm_num [COMPACTION_SIZE]) _ _ _ hdr
  have htake : (((encodeCmd (.Set keyK bigVal) ++ [10]) ++ encodeCmd (.Rm keyK) ++ [10])).take
      10031 = encodeCmd (.Set keyK bigVal) ++ [10] := by
    rw [List.append_assoc]
    exact take_len_append _ c1_len_F1
  rw [htake] at hcomp
  have hw : write_log
      (⟨[], encodeCmd (.Set keyK bigVal) ++ [10], false, [(keyK, ⟨0, 10030⟩)], 0⟩ : KvState)
      (.Rm keyK)
      = (⟨[], encodeCmd (.Set keyK bigVal) ++ [10], false, [(keyK, ⟨0, 10030⟩)], 10031⟩,
          none) := by
    rw [write_log_fields, c1_len_F1]
    exact hcomp
  rw [remove_eq_ok hr (removeA_singleton keyK bigVal) hw]
  rfl

theorem c1_step3 : KvStore.get c1S2 keyK = (c1S3, .ok (some bigVal)) := by
  have hr : read_log c1S2 = (c1S3, none) := by
    unfold c1S2 c1S3
    rw [c1_read [] [(keyK, ⟨0, 10030⟩)] 10031, insertA_nil, insertA_singleton]
  have hdr := drainLoop_zero_one
    ((encodeCmd (.Set keyK bigVal) ++ [10]) ++ encodeCmd (.Get keyK) ++ [10]) 10030
  simp only [Nat.reduceAdd] at hdr
  have hcomp := @compact_clean_eq [(keyK, bigVal)]
    ((encodeCmd (.Set keyK bigVal) ++ [10]) ++ encodeCmd (.Get keyK) ++ [10])
    [(keyK, ⟨0, 10030⟩)] 10031 (by norm_num [COMPACTION_SIZE]) _ _ _ hdr
  have htake : (((encodeCmd (.Set keyK bigVal) ++ [10]) ++ encodeCmd (.Get keyK) ++ [10])).take
      10031 = encodeCmd (.Set keyK bigVal) ++ [10] := by
    rw [List.append_assoc]
    exact take_len_append _ c1_len_F1
  rw [htake] at hcomp
  have hw : write_log c1S3 (.Get keyK) = (c1S3, none) := by
    unfold c1S3
    rw [write_log_fields, c1_len_F1]
    exact hcomp
  have hl : lookupA (c1S3.map) keyK = some bigVal := lookupA_singleton keyK bigVal
  rw [get_eq_found hr hl hw]

/-! ### The stale-offset run (C2/C3). -/

theorem insertA_cons_ne {α : Type} {k' k : List Nat} (h : k' ≠ k) (v' : α)
    (rest : List (List Nat × α)) (v : α) :
    insertA ((k', v') :: rest) k v = (k', v') :: insertA rest k v := by
  simp [insertA, h]

theorem lookupA_cons_ne {α : Type} {k' k : List Nat} (h : k' ≠ k) (v' : α)
    (rest : List (List Nat × α)) :
    lookupA ((k', v') :: rest) k = lookupA rest k := by
  simp [lookupA, h]

theorem drop_len_append {l1 : List Nat} (l2 : List Nat) {n : Nat} (h : l1.length = n) :
    (l1 ++ l2).drop n = l2 := by
  subst h
  exact List.drop_left ..

theorem take_all_len {l : List Nat} {n : Nat} (h : l.length = n) : l.take n = l := by
  subst h
  exact List.take_length l

theorem pP_ne_pA : keyP ≠ keyA := by decide

theorem len_rp : (encodeCmd (.Set keyP padVal)).length = 9967 := by
  rw [length_encode_set plain_keyP plain_padVal]
  have h1 : keyP.length = 1 := by decide
  have h2 : padVal.length = 9937 := by rw [padVal, List.length_replicate]
  omega

theorem len_FP1 : (encodeCmd (.Set keyP padVal) ++ [10]).length = 9968 := by
  rw [List.length_append, len_rp]
  rfl

theorem len_gp : (encodeCmd (.Get keyP)).length = 19 := by decide

theorem len_ga : (encodeCmd (.Get keyA)).length = 19 := by decide

theorem len_ra : (encodeCmd (.Set keyA valB)).length = 31 := by decide

theorem len_FP2 : ((encodeCmd (.Set keyP padVal) ++ [10]) ++ encodeCmd (.Get keyP) ++ [10]).length
    = 9988 := by
  simp only [List.length_append, List.length_cons, List.length_nil, len_rp, len_gp]

theorem len_FP3 : (((encodeCmd (.Set keyP padVal) ++ [10]) ++ encodeCmd (.Get keyP) ++ [10])
    ++ encodeCmd (.Set keyA valB) ++ [10]).length = 10020 := by
  simp only [List.length_append, List.length_cons, List.length_nil, len_rp, len_gp, len_ra]

theorem stA_dec1 : decode (sliceFT (encodeCmd (.Set keyP padVal) ++ [10]) 0
    (0 + (encodeCmd (.Set keyP padVal)).length)) = some (.Set keyP padVal) := by
  rw [sliceFT_zero, Nat.zero_add, List.take_left]
  exact decode_encode_set plain_keyP plain_padVal

theorem stA_scan1 (m0 : List (List Nat × List Nat)) (lp0 : List (List Nat × Bound)) :
    scanAux (encodeCmd (.Set keyP padVal) ++ [10]) (encodeCmd (.Set keyP padVal) ++ [10]) 0 0
        ⟨m0, lp0, true⟩
      = (⟨insertA m0 keyP padVal, insertA lp0 keyP ⟨0, 9967⟩, false⟩, 9968, 9968, none) := by
  have h := @scan_chunk (encodeCmd (.Set keyP padVal) ++ [10]) (encodeCmd (.Set keyP padVal)) 0
    (.Set keyP padVal) (encode_no10 _) stA_dec1 [] ⟨m0, lp0, true⟩
  rw [scan_nil] at h
  rw [len_rp] at h
  simp only [Nat.reduceAdd] at h
  rw [h]
  simp only [applyCmd]

theorem stA_step1 : KvStore.set (KvStore.openStore []) keyP padVal = (stAS1, .ok ()) := by
  unfold KvStore.openStore KvStore.set stAS1
  rw [write_log_fields]
  rw [List.nil_append, List.length_nil]
  rw [compact_small (by decide)]

theorem stA_step2 : KvStore.get stAS1 keyP = (stAS2, .ok (some padVal)) := by
  have hr : read_log stAS1
      = (⟨[(keyP, padVal)], encodeCmd (.Set keyP padVal) ++ [10], false,
          [(keyP, ⟨0, 9967⟩)], 0⟩, none) := by
    unfold stAS1
    rw [read_log_fields, stA_scan1 [] [], insertA_nil, insertA_nil]
  have hw : write_log (⟨[(keyP, padVal)], encodeCmd (.Set keyP padVal) ++ [10], false,
      [(keyP, ⟨0, 9967⟩)], 0⟩ : KvState) (.Get keyP) = (stAS2, none) := by
    unfold stAS2
    rw [write_log_fields, len_FP1]
    rw [compact_small (by decide)]
  rw [get_eq_found hr (lookupA_singleton keyP padVal) hw]

theorem stA_step3 : KvStore.set stAS2 keyA valB = (stAS3, .ok ()) := by
  unfold stAS2 stAS3 KvStore.set
  rw [write_log_fields, len_FP2]
  rw [compact_small (by decide)]

theorem stA_hd1 : decode (sliceFT
    (encodeCmd (.Set keyP padVal) ++ (10 :: (encodeCmd (.Get keyP) ++
      (10 :: (encodeCmd (.Set keyA valB) ++ (10 :: []))))))
    0 (0 + (encodeCmd (.Set keyP padVal)).length)) = some (.Set keyP padVal) := by
  rw [sliceFT_zero, Nat.zero_add, take_len_append _ rfl]
  exact decode_encode_set plain_keyP plain_padVal

theorem stA_hd2 : decode (sliceFT
    (encodeCmd (.Set keyP padVal) ++ (10 :: (encodeCmd (.Get keyP) ++
      (10 :: (encodeCmd (.Set keyA valB) ++ (10 :: []))))))
    9968 (9968 + (encodeCmd (.Get keyP)).length)) = some (.Get keyP) := by
  have ht := sliceFT_at (encodeCmd (.Set keyP padVal) ++ [10]) (encodeCmd (.Get keyP))
    (10 :: (encodeCmd (.Set keyA valB) ++ (10 :: [])))
  rw [len_FP1] at ht
  simp only [List.append_assoc, List.cons_append, List.nil_append] at ht
  rw [ht]
  exact decode_encode_get plain_keyP

theorem stA_hd3 : decode (sliceFT
    (encodeCmd (.Set keyP padVal) ++ (10 :: (encodeCmd (.Get keyP) ++
      (10 :: (encodeCmd (.Set keyA valB) ++ (10 :: []))))))
    9988 (9988 + (encodeCmd (.Set keyA valB)).length)) = some (.Set keyA valB) := by
  have ht := sliceFT_at ((encodeCmd (.Set keyP padVal) ++ [10]) ++ encodeCmd (.Get keyP) ++ [10])
    (encodeCmd (.Set keyA valB)) ([10])
  rw [len_FP2] at ht
  simp only [List.append_assoc, List.cons_append, List.nil_append] at ht
  rw [ht]
  exact decode_encode_set plain_keyA plain_valB

theorem stA_scan3 :
    scanAux
      (encodeCmd (.Set keyP padVal) ++ (10 :: (encodeCmd (.Get keyP) ++
        (10 :: (encodeCmd (.Set keyA valB) ++ (10 :: []))))))
      (encodeCmd (.Set keyP padVal) ++ (10 :: (encodeCmd (.Get keyP) ++
        (10 :: (encodeCmd (.Set keyA valB) ++ (10 :: []))))))
      0 0 ⟨[(keyP, padVal)], [(keyP, ⟨0, 9967⟩)], true⟩
      = (⟨[(keyP, padVal), (keyA, valB)],
          [(keyP, ⟨0, 9967⟩), (keyA, ⟨9988, 10019⟩)], false⟩, 10020, 10020, none) := by
  have h1 := @scan_chunk
    (encodeCmd (.Set keyP padVal) ++ (10 :: (encodeCmd (.Get keyP) ++
      (10 :: (encodeCmd (.Set keyA valB) ++ (10 :: []))))))
    (encodeCmd (.Set keyP padVal)) 0 (.Set keyP padVal) (encode_no10 _) stA_hd1
    (encodeCmd (.Get keyP) ++ (10 :: (encodeCmd (.Set keyA valB) ++ (10 :: []))))
    ⟨[(keyP, padVal)], [(keyP, ⟨0, 9967⟩)], true⟩
  rw [len_rp] at h1
  simp only [Nat.reduceAdd, Nat.zero_add, applyCmd] at h1
  rw [insertA_singleton, insertA_singleton] at h1
  have h2 := @scan_chunk
    (encodeCmd (.Set keyP padVal) ++ (10 :: (encodeCmd (.Get keyP) ++
      (10 :: (encodeCmd (.Set keyA valB) ++ (10 :: []))))))
    (encodeCmd (.Get keyP)) 9968 (.Get keyP) (encode_no10 _) stA_hd2
    (encodeCmd (.Set keyA valB) ++ (10 :: []))
    ⟨[(keyP, padVal)], [(keyP, ⟨0, 9967⟩)], false⟩
  rw [len_gp] at h2
  simp only [Nat.reduceAdd, applyCmd] at h2
  have h3 := @scan_chunk
    (encodeCmd (.Set keyP padVal) ++ (10 :: (encodeCmd (.Get keyP) ++
      (10 :: (encodeCmd (.Set keyA valB) ++ (10 :: []))))))
    (encodeCmd (.Set keyA valB)) 9988 (.Set keyA valB) (encode_no10 _) stA_hd3
    [] ⟨[(keyP, padVal)], [(keyP, ⟨0, 9967⟩)], false⟩
  rw [len_ra] at h3
  simp only [Nat.reduceAdd, applyCmd] at h3
  rw [insertA_cons_ne pP_ne_pA, insertA_cons_ne pP_ne_pA, insertA_nil, insertA_nil] at h3
  rw [scan_nil] at h3
  rw [h1, h2, h3]

theorem stA_step4 : KvStore.get stAS3 keyA = (stAS4, .ok (some valB)) := by
  have hshape : ((encodeCmd (.Set keyP padVal) ++ [10]) ++ encodeCmd (.Get keyP) ++ [10])
        ++ encodeCmd (.Set keyA valB) ++ [10]
      = encodeCmd (.Set keyP padVal) ++ (10 :: (encodeCmd (.Get keyP) ++
          (10 :: (encodeCmd (.Set keyA valB) ++ (10 :: []))))) := by
    simp only [List.append_assoc, List.cons_append, List.nil_append]
  have hscan : scanAux
      (((encodeCmd (.Set keyP padVal) ++ [10]) ++ encodeCmd (.Get keyP) ++ [10])
        ++ encodeCmd (.Set keyA valB) ++ [10])
      (((encodeCmd (.Set keyP padVal) ++ [10]) ++ encodeCmd (.Get keyP) ++ [10])
        ++ encodeCmd (.Set keyA valB) ++ [10])
      0 0 ⟨[(keyP, padVal)], [(keyP, ⟨0, 9967⟩)], true⟩
      = (⟨[(keyP, padVal), (keyA, valB)],
          [(keyP, ⟨0, 9967⟩), (keyA, ⟨9988, 10019⟩)], false⟩, 10020, 10020, none) := by
    rw [hshape]
    exact stA_scan3
  have hr : read_log stAS3
      = (⟨[(keyP, padVal), (keyA, valB)],
          ((encodeCmd (.Set keyP padVal) ++ [10]) ++ encodeCmd (.Get keyP) ++ [10])
            ++ encodeCmd (.Set keyA valB) ++ [10], false,
          [(keyP, ⟨0, 9967⟩), (keyA, ⟨9988, 10019⟩)], 9988⟩, none) := by
    unfold stAS3
    rw [read_log_fields, hscan]
  have hl : lookupA [(keyP, padVal), (keyA, valB)] keyA = some valB := by
    rw [lookupA_cons_ne pP_ne_pA, lookupA_singleton]
  have hdr := drainLoop_two
    (((((encodeCmd (.Set keyP padVal) ++ [10]) ++ encodeCmd (.Get keyP) ++ [10])
        ++ encodeCmd (.Set keyA valB) ++ [10]) ++ encodeCmd (.Get keyA)) ++ [10])
    9967 9988 10019
  simp only [Nat.reduceAdd, Nat.reduceSub] at hdr
  have hcomp := @compact_clean_eq [(keyP, padVal), (keyA, valB)]
    (((((encodeCmd (.Set keyP padVal) ++ [10]) ++ encodeCmd (.Get keyP) ++ [10])
        ++ encodeCmd (.Set keyA valB) ++ [10]) ++ encodeCmd (.Get keyA)) ++ [10])
    [(keyP, ⟨0, 9967⟩), (keyA, ⟨9988, 10019⟩)] 10020
    (by norm_num [COMPACTION_SIZE]) _ _ _ hdr
  have h4 : (((((encodeCmd (.Set keyP padVal) ++ [10]) ++ encodeCmd (.Get keyP) ++ [10])
        ++ encodeCmd (.Set keyA valB) ++ [10]) ++ encodeCmd (.Get keyA)) ++ [10])
      = (encodeCmd (.Set keyP padVal) ++ [10]) ++ (encodeCmd (.Get keyP) ++
          (10 :: (encodeCmd (.Set keyA valB) ++
            (10 :: (encodeCmd (.Get keyA) ++ (10 :: [])))))) := by
    simp only [List.append_assoc, List.cons_append, List.nil_append]
  have h5 : (((((encodeCmd (.Set keyP padVal) ++ [10]) ++ encodeCmd (.Get keyP) ++ [10])
        ++ encodeCmd (.Set keyA valB) ++ [10]) ++ encodeCmd (.Get keyA)) ++ [10])
      = ((encodeCmd (.Set keyP padVal) ++ [10]) ++ encodeCmd (.Get keyP) ++ [10])
          ++ (encodeCmd (.Set keyA valB) ++
              (10 :: (encodeCmd (.Get keyA) ++ (10 :: [])))) := by
    simp only [List.append_assoc, List.cons_append, List.nil_append]
  have htk : (((((encodeCmd (.Set keyP padVal) ++ [10]) ++ encodeCmd (.Get keyP) ++ [10])
        ++ encodeCmd (.Set keyA valB) ++ [10]) ++ encodeCmd (.Get keyA)) ++ [10]).take 9968
      = encodeCmd (.Set keyP padVal) ++ [10] := by
    rw [h4]
    exact take_len_append _ len_FP1
  have hdp : (((((encodeCmd (.Set keyP padVal) ++ [10]) ++ encodeCmd (.Get keyP) ++ [10])
        ++ encodeCmd (.Set keyA valB) ++ [10]) ++ encodeCmd (.Get keyA)) ++ [10]).drop 9988
      = encodeCmd (.Set keyA valB) ++ (10 :: (encodeCmd (.Get keyA) ++ (10 :: []))) := by
    rw [h5]
    exact drop_len_append _ len_FP2
  rw [htk, hdp] at hcomp
  have ht1 : ((encodeCmd (.Set keyP padVal) ++ [10]) ++ (encodeCmd (.Set keyA valB) ++
        (10 :: (encodeCmd (.Get keyA) ++ (10 :: []))))).take
          ((encodeCmd (.Set keyP padVal) ++ [10]).length + 32)
      = (encodeCmd (.Set keyP padVal) ++ [10]) ++ (encodeCmd (.Set keyA valB) ++
          (10 :: (encodeCmd (.Get keyA) ++ (10 :: [])))).take 32 := List.take_append 32
  rw [len_FP1] at ht1
  simp only [Nat.reduceAdd] at ht1
  have ht2 : (encodeCmd (.Set keyA valB) ++
        (10 :: (encodeCmd (.Get keyA) ++ (10 :: [])))).take
          ((encodeCmd (.Set keyA valB)).length + 1)
      = encodeCmd (.Set keyA valB) ++
          ((10 : Nat) :: (encodeCmd (.Get keyA) ++ (10 :: []))).take 1 := List.take_append 1
  rw [len_ra] at ht2
  simp only [Nat.reduceAdd] at ht2
  rw [show ((10 : Nat) :: (encodeCmd (.Get keyA) ++ (10 :: []))).take 1 = [10] from rfl] at ht2
  rw [ht1, ht2] at hcomp
  rw [← List.append_assoc] at hcomp
  have hw : write_log (⟨[(keyP, padVal), (keyA, valB)],
      ((encodeCmd (.Set keyP padVal) ++ [10]) ++ encodeCmd (.Get keyP) ++ [10])
        ++ encodeCmd (.Set keyA valB) ++ [10], false,
      [(keyP, ⟨0, 9967⟩), (keyA, ⟨9988, 10019⟩)], 9988⟩ : KvState) (.Get keyA)
      = (stAS4, none) := by
    unfold stAS4
    rw [write_log_fields, len_FP3]
    rw [hcomp]
  exact get_eq_found hr hl hw

theorem len_F4 : ((encodeCmd (.Set keyP padVal) ++ [10])
    ++ encodeCmd (.Set keyA valB) ++ [10]).length = 10000 := by
  simp only [List.length_append, List.length_cons, List.length_nil, len_rp, len_ra]

theorem stA_step5 : KvStore.get stAS4 keyA = (stAS5, .ok (some valB)) := by
  have hr : read_log stAS4
      = (⟨[(keyP, padVal), (keyA, valB)],
          (encodeCmd (.Set keyP padVal) ++ [10]) ++ encodeCmd (.Set keyA valB) ++ [10], false,
          [(keyP, ⟨0, 9967⟩), (keyA, ⟨9988, 10019⟩)], 10020⟩, none) := by
    unfold stAS4
    exact read_log_clean _ _ _ _
  have hl : lookupA [(keyP, padVal), (keyA, valB)] keyA = some valB := by
    rw [lookupA_cons_ne pP_ne_pA, lookupA_singleton]
  have hdr := drainLoop_two
    (((((encodeCmd (.Set keyP padVal) ++ [10]) ++ encodeCmd (.Set keyA valB)) ++ [10])
        ++ encodeCmd (.Get keyA)) ++ [10])
    9967 9988 10019
  simp only [Nat.reduceAdd, Nat.reduceSub] at hdr
  have hcomp := @compact_clean_eq [(keyP, padVal), (keyA, valB)]
    (((((encodeCmd (.Set keyP padVal) ++ [10]) ++ encodeCmd (.Set keyA valB)) ++ [10])
        ++ encodeCmd (.Get keyA)) ++ [10])
    [(keyP, ⟨0, 9967⟩), (keyA, ⟨9988, 10019⟩)] 10000
    (by norm_num [COMPACTION_SIZE]) _ _ _ hdr
  have h4 : (((((encodeCmd (.Set keyP padVal) ++ [10]) ++ encodeCmd (.Set keyA valB)) ++ [10])
        ++ encodeCmd (.Get keyA)) ++ [10])
      = (encodeCmd (.Set keyP padVal) ++ [10]) ++ (encodeCmd (.Set keyA valB) ++
          (10 :: (encodeCmd (.Get keyA) ++ (10 :: [])))) := by
    simp only [List.append_assoc, List.cons_append, List.nil_append]
  have htk : (((((encodeCmd (.Set keyP padVal) ++ [10]) ++ encodeCmd (.Set keyA valB)) ++ [10])
        ++ encodeCmd (.Get keyA)) ++ [10]).take 9968
      = encodeCmd (.Set keyP padVal) ++ [10] := by
    rw [h4]
    exact take_len_append _ len_FP1
  have hra : encodeCmd (.Set keyA valB)
      = (encodeCmd (.Set keyA valB)).take 20 ++ (encodeCmd (.Set keyA valB)).drop 20 :=
    (List.take_append_drop 20 _).symm
  have h5b : (((((encodeCmd (.Set keyP padVal) ++ [10]) ++ encodeCmd (.Set keyA valB)) ++ [10])
        ++ encodeCmd (.Get keyA)) ++ [10])
      = ((encodeCmd (.Set keyP padVal) ++ [10]) ++ (encodeCmd (.Set keyA valB)).take 20)
          ++ ((encodeCmd (.Set keyA valB)).drop 20 ++
              (10 :: (encodeCmd (.Get keyA) ++ (10 :: [])))) := by
    conv_lhs => rw [hra]
    simp only [List.append_assoc, List.cons_append, List.nil_append]
  have hlen : ((encodeCmd (.Set keyP padVal) ++ [10])
      ++ (encodeCmd (.Set keyA valB)).take 20).length = 9988 := by
    rw [List.length_append, len_FP1, List.length_take, len_ra]
    norm_num
  have hdp : (((((encodeCmd (.Set keyP padVal) ++ [10]) ++ encodeCmd (.Set keyA valB)) ++ [10])
        ++ encodeCmd (.Get keyA)) ++ [10]).drop 9988
      = (encodeCmd (.Set keyA valB)).drop 20 ++
          (10 :: (encodeCmd (.Get keyA) ++ (10 :: []))) := by
    rw [h5b]
    exact drop_len_append _ hlen
  rw [htk, hdp] at hcomp
  have hlen2 : ((encodeCmd (.Set keyP padVal) ++ [10]) ++ ((encodeCmd (.Set keyA valB)).drop 20
      ++ (10 :: (encodeCmd (.Get keyA) ++ (10 :: []))))).length = 10000 := by
    simp only [List.length_append, List.length_cons, List.length_nil, List.length_drop,
      len_rp, len_ra, len_ga]
  rw [take_all_len hlen2] at hcomp
  have hw : write_log (⟨[(keyP, padVal), (keyA, valB)],
      (encodeCmd (.Set keyP padVal) ++ [10]) ++ encodeCmd (.Set keyA valB) ++ [10], false,
      [(keyP, ⟨0, 9967⟩), (keyA, ⟨9988, 10019⟩)], 10020⟩ : KvState) (.Get keyA)
      = (stAS5, none) := by
    unfold stAS5
    rw [write_log_fields, len_F4]
    rw [hcomp]
    simp only [List.cons_append, List.nil_append]
  exact get_eq_found hr hl hw

theorem compact_clean_none (m : List (List Nat × List Nat)) (f : List Nat)
    (lp : List (List Nat × Bound)) (a : Nat) :
    ∃ s2 : KvState, compact_log ⟨m, f, false, lp, a⟩ = (s2, none) := by
  by_cases h : a < COMPACTION_SIZE
  · exact ⟨_, compact_small h⟩
  · rcases hdd : drainLoop f 0 0 (sortBounds (lp.map Prod.snd)) with ⟨buf, bg, ds⟩
    exact ⟨_, compact_clean_eq h hdd⟩

theorem write_clean_none (m : List (List Nat × List Nat)) (f : List Nat)
    (lp : List (List Nat × Bound)) (a : Nat) (cmd : CommandData) :
    ∃ s2 : KvState, write_log ⟨m, f, false, lp, a⟩ cmd = (s2, none) := by
  rw [write_log_fields]
  exact compact_clean_none m (f ++ encodeCmd cmd ++ [10]) lp f.length

theorem stA_mem : (KvStore.get stAS5 keyA).2 = Except.ok (some valB) := by
  have hr : read_log stAS5
      = (⟨[(keyP, padVal), (keyA, valB)],
          ((encodeCmd (.Set keyP padVal) ++ [10]) ++ ((encodeCmd (.Set keyA valB)).drop 20 ++
            ([10] ++ (encodeCmd (.Get keyA) ++ [10])))), false,
          [(keyP, ⟨0, 9967⟩), (keyA, ⟨9988, 10019⟩)], 10000⟩, none) := by
    unfold stAS5
    exact read_log_clean _ _ _ _
  have hl : lookupA [(keyP, padVal), (keyA, valB)] keyA = some valB := by
    rw [lookupA_cons_ne pP_ne_pA, lookupA_singleton]
  obtain ⟨s2, hw⟩ := write_clean_none [(keyP, padVal), (keyA, valB)]
    ((encodeCmd (.Set keyP padVal) ++ [10]) ++ ((encodeCmd (.Set keyA valB)).drop 20 ++
      ([10] ++ (encodeCmd (.Get keyA) ++ [10]))))
    [(keyP, ⟨0, 9967⟩), (keyA, ⟨9988, 10019⟩)] 10000 (.Get keyA)
  rw [get_eq_found hr hl hw]

theorem stA_reopen : KvStore.get (KvStore.openStore stAS5.file) keyA
    = (⟨[(keyP, padVal)], stAS5.file, false, [(keyP, ⟨0, 9967⟩)], 0⟩,
        .error .decodeErr) := by
  have hfile : stAS5.file = ((encodeCmd (.Set keyP padVal) ++ [10]) ++
      ((encodeCmd (.Set keyA valB)).drop 20 ++
        ([10] ++ (encodeCmd (.Get keyA) ++ [10])))) := rfl
  have hshape : ((encodeCmd (.Set keyP padVal) ++ [10]) ++
        ((encodeCmd (.Set keyA valB)).drop 20 ++
          ([10] ++ (encodeCmd (.Get keyA) ++ [10]))))
      = encodeCmd (.Set keyP padVal) ++ (10 :: ((encodeCmd (.Set keyA valB)).drop 20 ++
          (10 :: (encodeCmd (.Get keyA) ++ (10 :: []))))) := by
    simp only [List.append_assoc, List.cons_append, List.nil_append]
  have hdec1 : decode (sliceFT
      (encodeCmd (.Set keyP padVal) ++ (10 :: ((encodeCmd (.Set keyA valB)).drop 20 ++
        (10 :: (encodeCmd (.Get keyA) ++ (10 :: []))))))
      0 (0 + (encodeCmd (.Set keyP padVal)).length)) = some (.Set keyP padVal) := by
    rw [sliceFT_zero, Nat.zero_add, take_len_append _ rfl]
    exact decode_encode_set plain_keyP plain_padVal
  have h1 := @scan_chunk
    (encodeCmd (.Set keyP padVal) ++ (10 :: ((encodeCmd (.Set keyA valB)).drop 20 ++
      (10 :: (encodeCmd (.Get keyA) ++ (10 :: []))))))
    (encodeCmd (.Set keyP padVal)) 0 (.Set keyP padVal) (encode_no10 _) hdec1
    ((encodeCmd (.Set keyA valB)).drop 20 ++ (10 :: (encodeCmd (.Get keyA) ++ (10 :: []))))
    ⟨[], [], true⟩
  rw [len_rp] at h1
  simp only [Nat.reduceAdd, Nat.zero_add, applyCmd] at h1
  rw [insertA_nil, insertA_nil] at h1
  have hn10 : ∀ x ∈ (encodeCmd (.Set keyA valB)).drop 20, x ≠ 10 :=
    fun x hx => encode_no10 _ x (List.mem_of_mem_drop hx)
  have hdec2 : decode (sliceFT
      (encodeCmd (.Set keyP padVal) ++ (10 :: ((encodeCmd (.Set keyA valB)).drop 20 ++
        (10 :: (encodeCmd (.Get keyA) ++ (10 :: []))))))
      9968 (9968 + ((encodeCmd (.Set keyA valB)).drop 20).length)) = none := by
    have ht := sliceFT_at (encodeCmd (.Set keyP padVal) ++ [10])
      ((encodeCmd (.Set keyA valB)).drop 20)
      (10 :: (encodeCmd (.Get keyA) ++ (10 :: [])))
    rw [len_FP1] at ht
    simp only [List.append_assoc, List.cons_append, List.nil_append] at ht
    rw [ht]
    decide
  have h2 := @scan_fail
    (encodeCmd (.Set keyP padVal) ++ (10 :: ((encodeCmd (.Set keyA valB)).drop 20 ++
      (10 :: (encodeCmd (.Get keyA) ++ (10 :: []))))))
    ((encodeCmd (.Set keyA valB)).drop 20) 9968 hn10 hdec2
    (encodeCmd (.Get keyA) ++ (10 :: []))
    ⟨[(keyP, padVal)], [(keyP, ⟨0, 9967⟩)], false⟩
  simp only [Bool.false_and] at h2
  have hrr : read_log (KvStore.openStore stAS5.file)
      = (⟨[(keyP, padVal)], stAS5.file, false, [(keyP, ⟨0, 9967⟩)], 0⟩,
          some .decodeErr) := by
    rw [hfile]
    unfold KvStore.openStore
    rw [read_log_fields]
    rw [hshape]
    rw [h1, h2]
  exact get_eq_err hrr

/-- Claim C1 (refuted — code bug): after `set k v` followed by `remove k` on a
fresh store, `get k` returns `some v` rather than `none`.  The `remove` pushes
the file past the compaction threshold; compaction drains the tail of the
buffer from `bound.end + 1` (the live `Set` record's bound) to the end, which
deletes the just-appended `Rm` record from the log, and the next `get` replays
the log and resurrects the removed key. -/
theorem claim_C1_resurrect :
    KvStore.set (KvStore.openStore []) keyK bigVal = (c1S1, .ok ()) ∧
    KvStore.remove c1S1 keyK = (c1S2, .ok ()) ∧
    KvStore.get c1S2 keyK = (c1S3, .ok (some bigVal)) ∧
    some bigVal ≠ (none : Option (List Nat)) :=
  ⟨c1_step1, c1_step2, c1_step3, by decide⟩

/-- Claim C2 (refuted — code bug): a five-operation sequence on a fresh store
(`set p pad; get p; set a b; get a; get a`) succeeds in memory — the final
in-memory `get a` still answers `some b` — but compaction ran twice, the
second time reusing the stale byte offsets recorded before the first
compaction, so it cut the first 20 bytes out of the live `Set a` record.
Reopening a store over the resulting log fails with a decode error instead of
reproducing the in-memory observable state. -/
theorem claim_C2_reopen_differs :
    KvStore.set (KvStore.openStore []) keyP padVal = (stAS1, .ok ()) ∧
    KvStore.get stAS1 keyP = (stAS2, .ok (some padVal)) ∧
    KvStore.set stAS2 keyA valB = (stAS3, .ok ()) ∧
    KvStore.get stAS3 keyA = (stAS4, .ok (some valB)) ∧
    KvStore.get stAS4 keyA = (stAS5, .ok (some valB)) ∧
    (KvStore.get stAS5 keyA).2 = .ok (some valB) ∧
    KvStore.get (KvStore.openStore stAS5.file) keyA
      = (⟨[(keyP, padVal)], stAS5.file, false, [(keyP, ⟨0, 9967⟩)], 0⟩,
          .error .decodeErr) :=
  ⟨stA_step1, stA_step2, stA_step3, stA_step4, stA_step5, stA_mem, stA_reopen⟩

/-- Claim C3 (refuted — code bug): the compaction performed inside the second
`get a` (state `stAS4`, whose `log_pointers` still hold pre-compaction
offsets) produces a log that is NOT the concatenation of the latest `Set`
records of the indexed keys: it contains a 20-byte-truncated fragment of the
`Set a` record plus a logged `Get` record, even though both keys are still in
the index. -/
theorem claim_C3_compacted_log_corrupt :
    KvStore.get stAS4 keyA = (stAS5, .ok (some valB)) ∧
    stAS5.map = [(keyP, padVal), (keyA, valB)] ∧
    stAS5.file = ((encodeCmd (.Set keyP padVal) ++ [10]) ++
      ((encodeCmd (.Set keyA valB)).drop 20 ++
        ([10] ++ (encodeCmd (.Get keyA) ++ [10])))) ∧
    stAS5.file ≠ (encodeCmd (.Set keyP padVal) ++ [10]) ++
      (encodeCmd (.Set keyA valB) ++ [10]) := by
  refine ⟨stA_step5, rfl, rfl, ?_⟩
  intro h
  have hfile : stAS5.file = ((encodeCmd (.Set keyP padVal) ++ [10]) ++
      ((encodeCmd (.Set keyA valB)).drop 20 ++
        ([10] ++ (encodeCmd (.Get keyA) ++ [10])))) := rfl
  have hL : stAS5.file.drop 9968 = (encodeCmd (.Set keyA valB)).drop 20 ++
      ([10] ++ (encodeCmd (.Get keyA) ++ [10])) := by
    rw [hfile]
    exact drop_len_append _ len_FP1
  have hR : ((encodeCmd (.Set keyP padVal) ++ [10]) ++
      (encodeCmd (.Set keyA valB) ++ [10])).drop 9968
      = encodeCmd (.Set keyA valB) ++ [10] :=
    drop_len_append _ len_FP1
  have hx : (encodeCmd (.Set keyA valB)).drop 20 ++
      ([10] ++ (encodeCmd (.Get keyA) ++ [10]))
      = encodeCmd (.Set keyA valB) ++ [10] := by
    rw [← hL, h, hR]
  exact absurd hx (by decide)

theorem read_log_file (s : KvState) : (read_log s).1.file = s.file := by
  rcases s with ⟨m, f, d, lp, a⟩
  cases d with
  | false => rfl
  | true =>
      rw [read_log_fields]

theorem compact_log_actions (t : KvState) : (compact_log t).1.actions = t.actions := by
  rcases t with ⟨m, f, d, lp, a⟩
  unfold compact_log
  by_cases h : a < COMPACTION_SIZE
  · rw [if_pos h]
  · rw [if_neg h]
    cases d with
    | false =>
        rw [if_neg Bool.false_ne_true]
    | true =>
        rw [if_pos rfl]
        rw [read_log_fields]
        rcases hs : scanAux f f 0 0 ⟨m, lp, true⟩ with ⟨st, bg, en, err⟩
        cases err with
        | some e2 => rfl
        | none => simp only []

/-- Claim C4 (refuted): a `get` of a bound key DOES write to the log — on a
store replayed from a single `Set a b` record, `get a` appends an encoded
`Get` record, so the file afterwards differs from the file before. -/
theorem claim_C4_counterexample :
    (KvStore.get (KvStore.openStore goodLog) keyA).1.file
      = goodLog ++ encodeCmd (.Get keyA) ++ [10] ∧
    goodLog ++ encodeCmd (.Get keyA) ++ [10] ≠ goodLog := by
  constructor
  · decide
  · decide

/-- Claim C4 (amended): only a `get` of an UNBOUND key leaves the log file
unchanged (and returns `ok none`); a `get` of a bound key appends the encoded
`Get` record plus a newline and sets `actions` to the pre-append file length
(shown below the compaction threshold, where compaction is the identity). -/
theorem claim_C4_amended (s s1 : KvState) (key : List Nat)
    (hr : read_log s = (s1, none)) :
    (lookupA s1.map key = none →
      KvStore.get s key = (s1, .ok none) ∧ s1.file = s.file) ∧
    (∀ v, lookupA s1.map key = some v → s1.file.length < COMPACTION_SIZE →
      KvStore.get s key
        = ({ s1 with
              file := s1.file ++ encodeCmd (.Get key) ++ [10]
              actions := s1.file.length }, .ok (some v))) := by
  constructor
  · intro hl
    refine ⟨get_eq_none hr hl, ?_⟩
    have hf := read_log_file s
    rw [hr] at hf
    exact hf
  · intro v hl hsmall
    have hw : write_log s1 (.Get key)
        = ({ s1 with
              file := s1.file ++ encodeCmd (.Get key) ++ [10]
              actions := s1.file.length }, none) := by
      unfold write_log
      exact compact_small hsmall
    exact get_eq_found hr hl hw

/-- Witness for the amended C4 at a concrete store: the log holds one
`Set a b` record; `get` of the unbound key `c` returns `ok none` and the
state (file included) is exactly the replayed state. -/
theorem claim_C4_amended_witness :
    read_log (KvStore.openStore goodLog)
      = (⟨[(keyA, valB)], goodLog, false, [(keyA, ⟨0, 31⟩)], 0⟩, none) ∧
    KvStore.get (KvStore.openStore goodLog) keyC
      = (⟨[(keyA, valB)], goodLog, false, [(keyA, ⟨0, 31⟩)], 0⟩, .ok none) := by
  have h := claim_C4_amended (KvStore.openStore goodLog)
    ⟨[(keyA, valB)], goodLog, false, [(keyA, ⟨0, 31⟩)], 0⟩ keyC (by decide)
  exact ⟨by decide, (h.1 (by decide)).1⟩

/-- Claim C5 (refuted): `open` does not replay the log at all — over a log
whose single line is not a record, `open` still yields a handle (empty index,
`dirty = true`, no error), and the decode failure only surfaces on the first
`get`. -/
theorem claim_C5_counterexample :
    KvStore.openStore corruptLog = ⟨[], corruptLog, true, [], 0⟩ ∧
    (KvStore.get (KvStore.openStore corruptLog) keyA).2 = .error .decodeErr :=
  ⟨rfl, by decide⟩

/-- Claim C5 (amended): `open` is lazy — it returns an empty-index handle with
`dirty = true` for EVERY file content and never fails; the replay happens on
the first dirty read, and a mid-file decode error makes that first `get`
(not `open`) fail with the scan's error. -/
theorem claim_C5_amended (f key : List Nat) (st : Replay) (b e : Nat) (err : KvError)
    (hs : scanAux f f 0 0 ⟨[], [], true⟩ = (st, b, e, some err)) :
    KvStore.openStore f = ⟨[], f, true, [], 0⟩ ∧
    KvStore.get (KvStore.openStore f) key
      = (⟨st.map, f, st.dirty, st.log_pointers, 0⟩, .error err) := by
  refine ⟨rfl, ?_⟩
  have hr : read_log (KvStore.openStore f)
      = (⟨st.map, f, st.dirty, st.log_pointers, 0⟩, some err) := by
    unfold KvStore.openStore
    rw [read_log_fields, hs]
  exact get_eq_err hr

/-- Witness for the amended C5 on the concrete corrupt log. -/
theorem claim_C5_amended_witness :
    scanAux corruptLog corruptLog 0 0 ⟨[], [], true⟩
      = (⟨[], [], false⟩, 0, 8, some .decodeErr) ∧
    KvStore.get (KvStore.openStore corruptLog) keyA
      = (⟨[], corruptLog, false, [], 0⟩, .error .decodeErr) := by
  have h := claim_C5_amended corruptLog keyA ⟨[], [], false⟩ 0 8 .decodeErr (by decide)
  exact ⟨by decide, h.2⟩

/-- Claim C6 (refuted): replay does discard a trailing partial record, and a
reopened store still answers `get a` correctly — but the next mutation does
NOT rewrite the file to exclude the partial bytes: it plainly appends after
them, and the resulting log makes the new key unreadable (decode error), so
subsequent operations do not behave as if the partial bytes were absent. -/
theorem claim_C6_counterexample :
    (KvStore.get (KvStore.openStore (goodLog ++ fragBytes)) keyA).2 = .ok (some valB) ∧
    (KvStore.set (KvStore.openStore (goodLog ++ fragBytes)) keyC valD).1.file
      = (goodLog ++ fragBytes) ++ encodeCmd (.Set keyC valD) ++ [10] ∧
    (KvStore.get (KvStore.openStore
        ((goodLog ++ fragBytes) ++ encodeCmd (.Set keyC valD) ++ [10])) keyC).2
      = .error .decodeErr := by
  refine ⟨by decide, by decide, by decide⟩

/-- Claim C6 (amended): the scan ignores a trailing newline-free fragment
(no index change, no error — only the `end` counter advances), but writes
always append after the existing bytes: `write_log` never rewrites the file
to drop the fragment, which therefore fuses with the next appended record. -/
theorem claim_C6_amended (vec frag : List Nat) (b : Nat) (st : Replay)
    (h10 : ∀ x ∈ frag, x ≠ 10) :
    scanAux vec frag b b st
      = ({ st with dirty := st.dirty && frag.isEmpty }, b, b + frag.length, none) ∧
    ∀ (s : KvState) (cmd : CommandData),
      write_log s cmd = compact_log { s with
        actions := s.file.length
        file := s.file ++ encodeCmd cmd ++ [10] } := by
  constructor
  · conv_lhs => rw [← List.append_nil frag]
    rw [scan_adv h10, scan_nil]
  · intro s cmd
    rfl

/-- Witness for the amended C6: scanning the concrete 4-byte fragment after a
replayed `Set a b` record leaves the replay state untouched. -/
theorem claim_C6_amended_witness :
    (∀ x ∈ fragBytes, x ≠ 10) ∧
    scanAux goodLog fragBytes 32 32 ⟨[(keyA, valB)], [(keyA, ⟨0, 31⟩)], false⟩
      = (⟨[(keyA, valB)], [(keyA, ⟨0, 31⟩)], false⟩, 32, 36, none) := by
  have h := claim_C6_amended goodLog fragBytes 32
    ⟨[(keyA, valB)], [(keyA, ⟨0, 31⟩)], false⟩ (by decide)
  refine ⟨by decide, ?_⟩
  rw [h.1]
  rfl

/-- Claim C7 (refuted): `actions` is not a count of mutations since the last
compaction.  After one successful `set` it is 0 (not 1); after the next
operation — a `get`, not a mutation — it is 9968; and the compaction run
inside the final `get` leaves it at 10000 instead of resetting it to 0. -/
theorem claim_C7_counterexample :
    KvStore.set (KvStore.openStore []) keyP padVal = (stAS1, .ok ()) ∧
    stAS1.actions = 0 ∧
    KvStore.get stAS1 keyP = (stAS2, .ok (some padVal)) ∧
    stAS2.actions = 9968 ∧
    KvStore.get stAS4 keyA = (stAS5, .ok (some valB)) ∧
    stAS5.actions = 10000 ∧
    stAS5.actions ≠ 0 :=
  ⟨stA_step1, rfl, stA_step2, rfl, stA_step5, rfl, by decide⟩

/-- Claim C7 (amended): `actions` is the byte length of the log file as
measured at the START of every `write_log` (so it also moves on logged
`Get`s); compaction runs exactly when it is ≥ the 10⁴ threshold, is the
identity below it, and NEVER changes `actions` — there is no reset. -/
theorem claim_C7_amended (m : List (List Nat × List Nat)) (f : List Nat) (d : Bool)
    (lp : List (List Nat × Bound)) (a : Nat) (cmd : CommandData) :
    write_log ⟨m, f, d, lp, a⟩ cmd
      = compact_log ⟨m, f ++ encodeCmd cmd ++ [10], d, lp, f.length⟩ ∧
    (∀ t : KvState, t.actions < COMPACTION_SIZE → compact_log t = (t, none)) ∧
    (∀ t : KvState, (compact_log t).1.actions = t.actions) := by
  refine ⟨write_log_fields m f d lp a cmd, ?_, compact_log_actions⟩
  intro t h
  exact compact_small h

/-- Witness for the amended C7 at a concrete write: one `Set` on the empty
store. -/
theorem claim_C7_amended_witness :
    write_log ⟨[], [], true, [], 0⟩ (.Set keyA valB)
      = compact_log ⟨[], [] ++ encodeCmd (.Set keyA valB) ++ [10], true, [],
          ([] : List Nat).length⟩ ∧
    (0 : Nat) < COMPACTION_SIZE ∧
    compact_log ⟨[], goodLog, true, [], 0⟩ = (⟨[], goodLog, true, [], 0⟩, none) := by
  have h := claim_C7_amended [] [] true [] 0 (.Set keyA valB)
  exact ⟨h.1, by decide, h.2.1 ⟨[], goodLog, true, [], 0⟩ (by decide)⟩

/-- Claim C8 (refuted): engine errors are NOT caught per-request.  Over a
store whose log is corrupt, the first `Get` request makes the engine fail
with a decode error, and `serve` returns that error immediately: the second
queued connection is never handled (no replies are recorded for it). -/
theorem claim_C8_counterexample :
    serve (KvStore.openStore corruptLog)
      [.ok (encodeCmd (.Get keyA)), .ok (encodeCmd (.Get keyA))]
      = (⟨[], corruptLog, false, [], 0⟩, [], some (.engineErr .decodeErr)) ∧
    serve (KvStore.openStore corruptLog)
      [.ok (encodeCmd (.Rm keyA)), .ok (encodeCmd (.Rm keyA))]
      = (⟨[], corruptLog, false, [], 0⟩, [none, some knfReply], none) :=
  ⟨by decide, by decide⟩

/-- Claim C8 (amended): only `Rm` errors are caught per-request — a
`KeyNotFound` from `remove` yields the `Key not found` reply and the loop
continues, and any OTHER `remove` error is silently swallowed (reply-less)
with the loop continuing too; but an engine error from a `Get` request
propagates out of `serve` and terminates the accept loop with the remaining
connections unhandled. -/
theorem claim_C8_amended (store s' s2 : KvState) (key payload rpayload : List Nat)
    (e : KvError) (rest : List (Except Unit (List Nat)))
    (logs : List (Option (List Nat))) (err : Option ServeErr)
    (hdec : decode (payload.take 100) = some (.Get key))
    (hdec2 : decode (rpayload.take 100) = some (.Rm key))
    (hrest : serve s' rest = (s2, logs, err)) :
    (KvStore.get store key = (s', .error e) →
      serve store (.ok payload :: rest) = (s', [], some (.engineErr e))) ∧
    (KvStore.remove store key = (s', .error (.keyNotFound key)) →
      serve store (.ok rpayload :: rest) = (s2, some knfReply :: logs, err)) ∧
    (KvStore.remove store key = (s', .error .decodeErr) →
      serve store (.ok rpayload :: rest) = (s2, none :: logs, err)) := by
  refine ⟨?_, ?_, ?_⟩
  · intro hg
    rw [serve, hdec]
    simp only [handle_request]
    rw [hg]
  · intro hm
    rw [serve, hdec2]
    simp only [handle_request]
    rw [hm]
    simp only []
    rw [hrest]
  · intro hm
    rw [serve, hdec2]
    simp only [handle_request]
    rw [hm]
    simp only []
    rw [hrest]

/-- Witness for the amended C8: the corrupt-log store, a `Get a` payload and
an `Rm a` payload, an empty remaining connection list. -/
theorem claim_C8_amended_witness :
    decode ((encodeCmd (.Get keyA)).take 100) = some (.Get keyA) ∧
    serve (KvStore.openStore corruptLog) [.ok (encodeCmd (.Get keyA))]
      = (⟨[], corruptLog, false, [], 0⟩, [], some (.engineErr .decodeErr)) := by
  have h := claim_C8_amended (KvStore.openStore corruptLog)
    ⟨[], corruptLog, false, [], 0⟩ ⟨[], corruptLog, false, [], 0⟩ keyA
    (encodeCmd (.Get keyA)) (encodeCmd (.Rm keyA)) .decodeErr [] [] none
    (by decide) (by decide) (by decide)
  exact ⟨by decide, h.1 (by decide)⟩

/-- Claim C9 (refuted): the handler does not read the whole payload and the
bound is not configurable: a single `stream.read` into a fixed 100-byte
buffer truncates a valid 128-byte `Set` request, so its decode fails and
`serve` errors out instead of rejecting-or-processing it whole. -/
theorem claim_C9_counterexample :
    (encodeCmd (.Set keyA longVal)).length = 128 ∧
    serve (KvStore.openStore []) [.ok (encodeCmd (.Set keyA longVal))]
      = (KvStore.openStore [], [], some .decodeFail) :=
  ⟨by decide, by decide⟩

/-- Claim C9 (amended): the server always decodes exactly the first 100
payload bytes — a connection behaves identically to one whose payload is
truncated to 100 bytes — and whenever that truncated prefix fails to decode,
`serve` returns a decode failure on the spot. -/
theorem claim_C9_amended (store : KvState) (payload : List Nat)
    (rest : List (Except Unit (List Nat))) :
    serve store (.ok payload :: rest) = serve store (.ok (payload.take 100) :: rest) ∧
    (decode (payload.take 100) = none →
      serve store (.ok payload :: rest) = (store, [], some .decodeFail)) := by
  constructor
  · simp only [serve]
    rw [List.take_take, Nat.min_self]
  · intro h
    rw [serve, h]

/-- Witness for the amended C9: the 128-byte `Set` request whose 100-byte
prefix does not decode. -/
theorem claim_C9_amended_witness :
    decode ((encodeCmd (.Set keyA longVal)).take 100) = none ∧
    serve (KvStore.openStore []) [.ok (encodeCmd (.Set keyA longVal))]
      = (KvStore.openStore [], [], some .decodeFail) := by
  have h := claim_C9_amended (KvStore.openStore []) (encodeCmd (.Set keyA longVal)) []
  exact ⟨by decide, h.2 (by decide)⟩
